import Mathlib

/-!
# Stellarium `Nebula` (src/core/modules/Nebula.hpp)

A shallow embedding of the `Nebula` class declared in `Nebula.hpp`: its data
members, the `NebulaType` enumeration, the member functions whose bodies are
given inline in the header, and the IEEE-754 arithmetic those bodies use.
-/

namespace Stellarium

/-! ## IEEE-754 binary floating point -/

/-- An IEEE-754 datum: not-a-number, a signed infinity, or a signed finite
number `(-1)^neg * m * 2^e`. -/
inductive FP where
  | nan : FP
  | inf (neg : Bool) : FP
  | fin (neg : Bool) (m : Nat) (e : Int) : FP
  deriving DecidableEq, Repr

/-- The extended rationals an IEEE datum denotes. -/
inductive ExtRat where
  | nan : ExtRat
  | inf (neg : Bool) : ExtRat
  | fin (q : ℚ) : ExtRat
  deriving DecidableEq

/-- Half of an extended rational: NaN and the infinities are absorbing. -/
def ExtRat.half : ExtRat → ExtRat
  | .nan => .nan
  | .inf s => .inf s
  | .fin q => .fin (q / 2)

/-- The sign factor of a sign bit. -/
def signQ (neg : Bool) : ℚ := if neg then -1 else 1

/-- The value an IEEE datum denotes. -/
def FP.value : FP → ExtRat
  | .nan => .nan
  | .inf s => .inf s
  | .fin s m e => .fin (signQ s * (m : ℚ) * (2 : ℚ) ^ e)

/-- Number of binary digits of `n`, by at most `fuel` halvings. -/
def bitLengthAux : Nat → Nat → Nat
  | 0, _ => 0
  | fuel + 1, n => if n = 0 then 0 else bitLengthAux fuel (n / 2) + 1

/-- Number of binary digits of `n` (`0` for `0`). -/
def bitLength (n : Nat) : Nat := bitLengthAux n n

/-- Round the exact number `(-1)^neg * m * 2^e` to the binary format with
`p` digits of precision, least exponent `emin` for the last digit, and
overflow threshold `2^top`, to nearest with ties to even. -/
def FP.round (p : Nat) (emin top : Int) (neg : Bool) (m : Nat) (e : Int) : FP :=
  let k : Nat := max (bitLength m - p) (emin - e).toNat
  let q := m / 2 ^ k
  let r := m % 2 ^ k
  let m1 := if 2 ^ k < 2 * r ∨ (2 * r = 2 ^ k ∧ q % 2 = 1) then q + 1 else q
  let e1 : Int := e + (k : Int)
  if top < (bitLength m1 : Int) + e1 then .inf neg else .fin neg m1 e1

/-- Rounding to binary64 (`double`): 53 digits, subnormal step `2^-1074`. -/
def FP.round64 (neg : Bool) (m : Nat) (e : Int) : FP := FP.round 53 (-1074) 1024 neg m e

/-- Conversion of a datum to `double`. -/
def FP.toBinary64 : FP → FP
  | .nan => .nan
  | .inf s => .inf s
  | .fin s m e => FP.round64 s m e

/-- The `double` product `a * b`. -/
def FP.mul64 : FP → FP → FP
  | .nan, _ => .nan
  | _, .nan => .nan
  | .inf s, .inf t => .inf (xor s t)
  | .inf s, .fin t n _ => if n = 0 then .nan else .inf (xor s t)
  | .fin s m _, .inf t => if m = 0 then .nan else .inf (xor s t)
  | .fin s m e, .fin t n f => FP.round64 (xor s t) (m * n) (e + f)

/-- The `double` literal `0.5`. -/
def FP.half : FP := .fin false 1 (-1)

/-- A C++ `float`: its 32-bit IEEE-754 binary32 pattern. -/
structure Float32 where
  bits : Nat
  deriving DecidableEq, Repr

/-- A C++ `double`: its 64-bit IEEE-754 binary64 pattern. -/
structure Float64 where
  bits : Nat
  deriving DecidableEq, Repr

/-- Sign bit of a binary32 pattern. -/
def Float32.sign (f : Float32) : Bool := decide (f.bits / 2 ^ 31 % 2 = 1)

/-- Biased exponent field of a binary32 pattern. -/
def Float32.expField (f : Float32) : Nat := f.bits / 2 ^ 23 % 256

/-- Fraction field of a binary32 pattern. -/
def Float32.fracField (f : Float32) : Nat := f.bits % 2 ^ 23

/-- The IEEE datum of a binary32 pattern. -/
def Float32.toFP (f : Float32) : FP :=
  if f.expField = 255 then
    (if f.fracField = 0 then .inf f.sign else .nan)
  else if f.expField = 0 then .fin f.sign f.fracField (-149)
  else .fin f.sign (2 ^ 23 + f.fracField) ((f.expField : Int) - 150)

/-- A `Vec3d`: three `double` components. -/
structure Vec3d where
  x : Float64
  y : Float64
  z : Float64
  deriving DecidableEq, Repr

/-- A `Vec3f`: three `float` components. -/
structure Vec3f where
  x : Float32
  y : Float32
  z : Float32
  deriving DecidableEq, Repr

/-- A `QString`: its sequence of UTF-16 code units. -/
structure QString where
  units : List Nat
  deriving DecidableEq, Repr

/-- The code units of a Lean string whose characters lie in the basic plane. -/
def QString.ofString (s : String) : QString := ⟨s.toList.map Char.toNat⟩

/-! ## `Nebula::NebulaType` -/

/-- The enumeration `Nebula::NebulaType`, in declared order. -/
inductive NebulaType where
  | NebGx
  | NebOpenC
  | NebGlobC
  | NebN
  | NebPNe
  | NebDn
  | NebIg
  | NebCn
  | NebUnknown
  | NebGNe
  | NebEmis
  | NebCopy
  | NebInNGC
  | NebStar
  deriving DecidableEq, Repr, Fintype

/-- The enumerators in declared order. -/
def NebulaType.all : List NebulaType :=
  [.NebGx, .NebOpenC, .NebGlobC, .NebN, .NebPNe, .NebDn, .NebIg, .NebCn, .NebUnknown,
   .NebGNe, .NebEmis, .NebCopy, .NebInNGC, .NebStar]

/-- The integer value of an enumerator: none is given an initializer, so the
first is `0` and each next one is one more than its predecessor, which is the
position in the declared order. -/
def NebulaType.code (t : NebulaType) : Int := (NebulaType.all.indexOf t : Nat)

/-- The conversion `(Nebula::NebulaType)n` of an integer to the enumeration:
the enumerator whose value is `n`, when there is one. -/
def NebulaType.ofCode (n : Int) : Option NebulaType :=
  NebulaType.all.find? (fun t => decide (t.code = n))

/-- The enumeration kept under `#if 0` in the header, with its explicit
initializers. -/
inductive LegacyNebulaType where
  | NebGx
  | NebOc
  | NebGc
  | NebN
  | NebPn
  | NebDn
  | NebIg
  | NebCn
  | NebUnknown
  deriving DecidableEq, Repr, Fintype

/-- The initializer of each legacy enumerator. -/
def LegacyNebulaType.code : LegacyNebulaType → Int
  | .NebGx => 0
  | .NebOc => 1
  | .NebGc => 2
  | .NebN => 3
  | .NebPn => 4
  | .NebDn => 5
  | .NebIg => 6
  | .NebCn => 7
  | .NebUnknown => 8

/-- The current enumerator documented with the same meaning as a legacy one
(galaxy, open cluster, globular cluster, nebula, planetary nebula, `Dn`,
`Ig`, `Cn`, unknown). -/
def LegacyNebulaType.toCurrent : LegacyNebulaType → NebulaType
  | .NebGx => .NebGx
  | .NebOc => .NebOpenC
  | .NebGc => .NebGlobC
  | .NebN => .NebN
  | .NebPn => .NebPNe
  | .NebDn => .NebDn
  | .NebIg => .NebIg
  | .NebCn => .NebCn
  | .NebUnknown => .NebUnknown

/-- The enumerators listed after the comment
`NEW types added for W. Steinicke catalogue`. -/
def NebulaType.added : List NebulaType := [.NebGNe, .NebEmis, .NebCopy, .NebInNGC, .NebStar]

/-! ## The data members of `Nebula` -/

/-- The non-static data members of a `Nebula`, in declared order. `Region`
stands for `SphericalRegionP`, whose declaration is not part of the header. -/
structure Nebula (Region : Type) where
  M_nb : Nat
  NGC_nb : Nat
  IC_nb : Nat
  englishName : QString
  nameI18 : QString
  mag : Float32
  angularSize : Float32
  XYZ : Vec3d
  XYZ2 : Vec3d
  XY : Vec3d
  XY2 : Vec3d
  nType : NebulaType
  bNGCObject : Bool
  BminusV : Float32
  PGC_nb : Int
  altDesig1 : QString
  pointRegion : Region
  bDreyerObject : Bool
  constellationAbbr : QString
  magB : Float32
  magV : Float32
  SBrightness : Float32
  sizeX : Float32
  sizeY : Float32
  PAdeg : Float32
  hubbleType : QString
  redshift : Float32
  dist : Float32
  distz : Float32
  deriving DecidableEq, Repr

/-- The static data members of `Nebula`. `Tex` stands for `StelTextureSP`. -/
structure NebulaStatics (Tex : Type) where
  texCircle : Tex
  texOpenCluster : Tex
  texGlobularCluster : Tex
  texPlanetNebula : Tex
  hintsBrightness : Float32
  labelColor : Vec3f
  circleColor : Vec3f
  circleScale : Float32
  deriving DecidableEq, Repr

/-- A process: the one copy of the static members and the objects alive. -/
structure World (Tex Region : Type) where
  statics : NebulaStatics Tex
  objects : List (Nebula Region)
  deriving DecidableEq, Repr

/-! ## Member functions defined in the header -/

section Members

variable {Region Tex Core : Type}

/-- Source: `getVMagnitude(const StelCore* core = NULL) const {Q_UNUSED(core); return mag;}` -/
def Nebula.getVMagnitude (o : Nebula Region) (_core : Option Core) : Float32 := o.mag

/-- Source: `getNameI18n() const {return nameI18;}` -/
def Nebula.getNameI18n (o : Nebula Region) : QString := o.nameI18

/-- Source: `getEnglishName() const {return englishName;}` -/
def Nebula.getEnglishName (o : Nebula Region) : QString := o.englishName

/-- Source: `getAngularSize(const StelCore*) const {return angularSize*0.5;}`: the
`float` member is converted to `double` and multiplied by the `double` `0.5`.
The result is given as the IEEE datum of the returned `double`. -/
def Nebula.getAngularSize (o : Nebula Region) (_core : Option Core) : FP :=
  FP.mul64 (FP.toBinary64 o.angularSize.toFP) FP.half

/-- Source: `getJ2000EquatorialPos(const StelCore*) const {return XYZ;}` -/
def Nebula.getJ2000EquatorialPos (o : Nebula Region) (_core : Option Core) : Vec3d := o.XYZ

/-- Source: `getRegion() const {return pointRegion;}` -/
def Nebula.getRegion (o : Nebula Region) : Region := o.pointRegion

/-- The part of `StelTranslator` the header uses: `qtranslate`. -/
structure StelTranslator where
  qtranslate : QString → QString

/-- Source: `translateName(StelTranslator& trans) {nameI18 = trans.qtranslate(englishName);}` -/
def Nebula.translateName (o : Nebula Region) (trans : StelTranslator) : Nebula Region :=
  { o with nameI18 := trans.qtranslate o.englishName }

/-- Source: `setLabelColor(const Vec3f& v) {labelColor = v;}` called on any object of
the process: the assignment is to the static member. -/
def World.setLabelColor (w : World Tex Region) (_this : Nat) (v : Vec3f) : World Tex Region :=
  { w with statics := { w.statics with labelColor := v } }

/-- Source: `setCircleColor(const Vec3f& v) {circleColor = v;}` called on any object
of the process: the assignment is to the static member. -/
def World.setCircleColor (w : World Tex Region) (_this : Nat) (v : Vec3f) : World Tex Region :=
  { w with statics := { w.statics with circleColor := v } }

end Members

/-! ## Example objects -/

/-- An object with every number zero, every string empty and the first
enumerator as its type. -/
def exampleBlank : Nebula Unit :=
  { M_nb := 0, NGC_nb := 0, IC_nb := 0, englishName := ⟨[]⟩, nameI18 := ⟨[]⟩,
    mag := ⟨0⟩, angularSize := ⟨0⟩,
    XYZ := ⟨⟨0⟩, ⟨0⟩, ⟨0⟩⟩, XYZ2 := ⟨⟨0⟩, ⟨0⟩, ⟨0⟩⟩, XY := ⟨⟨0⟩, ⟨0⟩, ⟨0⟩⟩, XY2 := ⟨⟨0⟩, ⟨0⟩, ⟨0⟩⟩,
    nType := .NebGx, bNGCObject := false, BminusV := ⟨0⟩, PGC_nb := 0, altDesig1 := ⟨[]⟩,
    pointRegion := (), bDreyerObject := false, constellationAbbr := ⟨[]⟩,
    magB := ⟨0⟩, magV := ⟨0⟩, SBrightness := ⟨0⟩, sizeX := ⟨0⟩, sizeY := ⟨0⟩, PAdeg := ⟨0⟩,
    hubbleType := ⟨[]⟩, redshift := ⟨0⟩, dist := ⟨0⟩, distz := ⟨0⟩ }

/-- The galaxy M31 = NGC 224: magnitude `3.4f` (pattern `0x4059999A`),
angular size `3.0f` (pattern `0x40400000`). -/
def exampleM31 : Nebula Unit :=
  { exampleBlank with
    M_nb := 31, NGC_nb := 224, englishName := QString.ofString "M31",
    mag := ⟨0x4059999A⟩, angularSize := ⟨0x40400000⟩, nType := .NebGx, bNGCObject := true,
    constellationAbbr := QString.ofString "And" }

/-- An object whose magnitude holds a quiet NaN (pattern `0x7FC00000`). -/
def exampleNaNMag : Nebula Unit := { exampleBlank with mag := ⟨0x7FC00000⟩ }

/-! ## Lemmas on the floating-point model -/

theorem bitLengthAux_le (fuel : Nat) : ∀ (m n : Nat), m < 2 ^ n → bitLengthAux fuel m ≤ n := by
  induction fuel with
  | zero => intro m n _; simp [bitLengthAux]
  | succ k ih =>
    intro m n h
    unfold bitLengthAux
    split
    · exact Nat.zero_le _
    · rename_i hm
      cases n with
      | zero => simp at h; omega
      | succ n =>
        have : m / 2 < 2 ^ n := by
          rw [pow_succ] at h
          omega
        have := ih (m / 2) n this
        omega

theorem bitLength_le {m n : Nat} (h : m < 2 ^ n) : bitLength m ≤ n :=
  bitLengthAux_le m m n h

theorem bitLengthAux_lt (fuel : Nat) : ∀ m : Nat, m ≤ fuel → m < 2 ^ bitLengthAux fuel m := by
  induction fuel with
  | zero => intro m h; simp [bitLengthAux]; omega
  | succ k ih =>
    intro m h
    unfold bitLengthAux
    split
    · rename_i h0; simp [h0]
    · rename_i hm
      have := ih (m / 2) (by omega)
      rw [pow_succ]
      omega

/-- Every number is below the power of two given by its digit count. -/
theorem lt_two_pow_bitLength (m : Nat) : m < 2 ^ bitLength m :=
  bitLengthAux_lt m m (Nat.le_refl m)

/-- A positive number has no fewer digits than `bitLength` counts. -/
theorem two_pow_bitLength_le (m : Nat) (h : m ≠ 0) : 2 ^ (bitLength m - 1) ≤ m := by
  by_contra hlt
  have h1 : m < 2 ^ (bitLength m - 1) := by omega
  have h2 := bitLength_le h1
  have h3 : bitLength m ≠ 0 := by
    intro h0
    have := lt_two_pow_bitLength m
    rw [h0] at this
    simp at this
    exact h this
  omega

/-- Rounding to binary64 on ties, in the subnormal range and at overflow. -/
theorem round64_examples :
    FP.round64 false (2 ^ 53 + 1) 0 = .fin false (2 ^ 52) 1 ∧
    FP.round64 false (2 ^ 53 + 3) 0 = .fin false (2 ^ 52 + 2) 1 ∧
    FP.round64 true 3 (-1075) = .fin true 2 (-1074) ∧
    FP.round64 false 1 (-1075) = .fin false 0 (-1074) ∧
    FP.round64 false (2 ^ 54 - 1) 970 = .inf false := by
  decide

/-- A number with at most 53 digits whose last digit is within the exponent
range of binary64 is its own rounding. -/
theorem round64_exact (s : Bool) (m : Nat) (e : Int) (hm : m < 2 ^ 53) (hlo : -1074 ≤ e)
    (hhi : e ≤ 971) : FP.round64 s m e = .fin s m e := by
  have hb : bitLength m ≤ 53 := bitLength_le hm
  have hk : max (bitLength m - 53) ((-1074 : Int) - e).toNat = 0 := by
    have h1 : bitLength m - 53 = 0 := by omega
    have h2 : ((-1074 : Int) - e).toNat = 0 := by omega
    rw [h1, h2]; rfl
  unfold FP.round64 FP.round
  simp only [hk]
  have ht : ¬ ((1024 : Int) < (bitLength m : Int) + e) := by omega
  simp [Nat.mod_one, ht]

/-- The datum of a binary32 pattern is NaN, an infinity, or a finite number
of at most 24 digits within the exponent range of binary32. -/
theorem toFP_cases (f : Float32) :
    f.toFP = .nan ∨ (∃ s, f.toFP = .inf s) ∨
      ∃ s m e, f.toFP = .fin s m e ∧ m < 2 ^ 24 ∧ -149 ≤ e ∧ e ≤ 104 := by
  unfold Float32.toFP
  have hE : f.expField < 256 := by unfold Float32.expField; omega
  have hF : f.fracField < 2 ^ 23 := by unfold Float32.fracField; omega
  split
  · split
    · exact Or.inr (Or.inl ⟨_, rfl⟩)
    · exact Or.inl rfl
  · split
    · exact Or.inr (Or.inr ⟨_, _, _, rfl, by omega, by omega, by omega⟩)
    · exact Or.inr (Or.inr ⟨_, _, _, rfl, by omega, by omega, by omega⟩)

theorem value_mul_half_of_fin (s : Bool) (m : Nat) (e : Int) (hm : m < 2 ^ 24) (hlo : -149 ≤ e)
    (hhi : e ≤ 104) :
    (FP.mul64 (FP.toBinary64 (.fin s m e)) FP.half).value = (FP.value (.fin s m e)).half := by
  have h1 : FP.toBinary64 (.fin s m e) = .fin s m e :=
    round64_exact s m e (by omega) (by omega) (by omega)
  rw [h1]
  have h2 : FP.mul64 (.fin s m e) FP.half = .fin s m (e + -1) := by
    unfold FP.half FP.mul64
    simp only [Bool.xor_false, Nat.mul_one]
    exact round64_exact s m (e + -1) (by omega) (by omega) (by omega)
  rw [h2]
  simp only [FP.value, ExtRat.half]
  congr 1
  rw [zpow_add₀ (by norm_num : (2 : ℚ) ≠ 0)]
  simp only [zpow_neg, zpow_one]
  ring

theorem value_mul_half (f : Float32) :
    (FP.mul64 (FP.toBinary64 f.toFP) FP.half).value = f.toFP.value.half := by
  rcases toFP_cases f with h | ⟨s, h⟩ | ⟨s, m, e, h, hm, hlo, hhi⟩
  · rw [h]; rfl
  · rw [h]; simp [FP.toBinary64, FP.mul64, FP.half, FP.value, ExtRat.half]
  · rw [h]; exact value_mul_half_of_fin s m e hm hlo hhi

/-! ## Lemmas on the enumeration -/

theorem code_injective : ∀ t1 t2 : NebulaType, t1.code = t2.code → t1 = t2 := by decide

theorem ofCode_in_range (n : Int) (h0 : 0 ≤ n) (h1 : n ≤ 13) :
    ∃ t, NebulaType.ofCode n = some t ∧ t.code = n := by
  interval_cases n <;> decide

/-! ## The claims -/

section Claims

variable {Region Tex Core : Type}

/-- C1: for every object and every `core` argument, `getAngularSize` returns
exactly half of the stored `angularSize` (no rounding occurs; NaN and the
infinities are returned as they are); a stored `3.0` gives `1.5` and a stored
`0` gives `0`. -/
theorem getAngularSize_is_half (o : Nebula Region) (core : Option Core) :
    (o.getAngularSize core).value = o.angularSize.toFP.value.half ∧
    (o.angularSize.toFP.value = .fin 3 → (o.getAngularSize core).value = .fin (3 / 2)) ∧
    (o.angularSize.toFP.value = .fin 0 → (o.getAngularSize core).value = .fin 0) := by
  have h : (o.getAngularSize core).value = o.angularSize.toFP.value.half :=
    value_mul_half o.angularSize
  refine ⟨h, ?_, ?_⟩
  · intro h3; rw [h, h3]; rfl
  · intro h0; rw [h, h0]; simp [ExtRat.half]

/-- The stored `3.0` of M31 is returned as `1.5`. -/
theorem getAngularSize_is_half_witness :
    exampleM31.angularSize.toFP.value = .fin 3 ∧
    (exampleM31.getAngularSize (none : Option Unit)).value = .fin (3 / 2) := by
  have h3 : exampleM31.angularSize.toFP.value = .fin 3 := by
    have : exampleM31.angularSize.toFP = .fin false 12582912 (-22) := by decide
    rw [this]
    simp only [FP.value, signQ]
    norm_num
  exact ⟨h3, (getAngularSize_is_half exampleM31 none).2.1 h3⟩

/-- C2: the enumeration has exactly 14 enumerators, valued 0 to 13 in declared
order; every integer from 0 to 13 is the value of exactly one enumerator and
converts to it, and converting the value of an enumerator gives it back. -/
theorem nebulaType_codes :
    Fintype.card NebulaType = 14 ∧
    (NebulaType.NebGx.code = 0 ∧ NebulaType.NebOpenC.code = 1 ∧ NebulaType.NebGlobC.code = 2 ∧
      NebulaType.NebN.code = 3 ∧ NebulaType.NebPNe.code = 4 ∧ NebulaType.NebDn.code = 5 ∧
      NebulaType.NebIg.code = 6 ∧ NebulaType.NebCn.code = 7 ∧ NebulaType.NebUnknown.code = 8 ∧
      NebulaType.NebGNe.code = 9 ∧ NebulaType.NebEmis.code = 10 ∧ NebulaType.NebCopy.code = 11 ∧
      NebulaType.NebInNGC.code = 12 ∧ NebulaType.NebStar.code = 13) ∧
    (∀ n : Int, 0 ≤ n → n ≤ 13 → ∃! t : NebulaType, t.code = n) ∧
    (∀ n : Int, 0 ≤ n → n ≤ 13 → ∃ t, NebulaType.ofCode n = some t ∧ t.code = n) ∧
    (∀ t : NebulaType, NebulaType.ofCode t.code = some t) := by
  refine ⟨by decide, by decide, ?_, ofCode_in_range, by decide⟩
  intro n h0 h1
  obtain ⟨t, _, ht⟩ := ofCode_in_range n h0 h1
  exact ⟨t, ht, fun t2 h2 => code_injective t2 t (h2.trans ht.symm)⟩

/-- The integer 11 is the value of exactly one enumerator and converts to it. -/
theorem nebulaType_codes_witness :
    (∃! t : NebulaType, t.code = 11) ∧
    (∃ t, NebulaType.ofCode 11 = some t ∧ t.code = 11) :=
  ⟨nebulaType_codes.2.2.1 11 (by decide) (by decide),
   nebulaType_codes.2.2.2.1 11 (by decide) (by decide)⟩

/-- C4: the current enumeration extends the legacy nine-enumerator one by
appending: every legacy enumerator keeps its value (0 to 8) and its relative
order, and each of the five added enumerators has a value above every legacy
value. -/
theorem nebulaType_extends_legacy :
    (∀ l : LegacyNebulaType, l.toCurrent.code = l.code) ∧
    (LegacyNebulaType.NebGx.code = 0 ∧ LegacyNebulaType.NebOc.code = 1 ∧
      LegacyNebulaType.NebGc.code = 2 ∧ LegacyNebulaType.NebN.code = 3 ∧
      LegacyNebulaType.NebPn.code = 4 ∧ LegacyNebulaType.NebDn.code = 5 ∧
      LegacyNebulaType.NebIg.code = 6 ∧ LegacyNebulaType.NebCn.code = 7 ∧
      LegacyNebulaType.NebUnknown.code = 8) ∧
    (∀ l1 l2 : LegacyNebulaType, l1.code < l2.code ↔ l1.toCurrent.code < l2.toCurrent.code) ∧
    (∀ l1 l2 : LegacyNebulaType, l1.toCurrent = l2.toCurrent → l1 = l2) ∧
    (∀ t ∈ NebulaType.added, ∀ l : LegacyNebulaType, l.code < t.code) ∧
    (∀ t : NebulaType, (∃ l : LegacyNebulaType, l.toCurrent = t) ∨ t ∈ NebulaType.added) := by
  refine ⟨by decide, by decide, by decide, by decide, by decide, by decide⟩

/-- The added enumerator `NebCopy` lies above the last legacy value, and the
legacy planetary nebula keeps the value 4. -/
theorem nebulaType_extends_legacy_witness :
    NebulaType.NebCopy ∈ NebulaType.added ∧
    LegacyNebulaType.NebUnknown.code < NebulaType.NebCopy.code ∧
    LegacyNebulaType.NebPn.toCurrent.code = 4 :=
  ⟨by decide,
   nebulaType_extends_legacy.2.2.2.2.1 NebulaType.NebCopy (by decide) LegacyNebulaType.NebUnknown,
   (nebulaType_extends_legacy.1 LegacyNebulaType.NebPn).trans (by decide)⟩

/-- C10: `getVMagnitude` returns the stored `mag` as it is, whatever `core`,
`magB` and `magV` are; objects with the same `mag` give the same result, and a
stored value that is not zero is not turned into zero. -/
theorem getVMagnitude_returns_mag :
    (∀ (o : Nebula Region) (core : Option Core), o.getVMagnitude core = o.mag) ∧
    (∀ (o : Nebula Region) (b v : Float32) (core : Option Core),
      ({ o with magB := b, magV := v } : Nebula Region).getVMagnitude core = o.mag) ∧
    (∀ (o1 o2 : Nebula Region) (c1 c2 : Option Core),
      o1.mag = o2.mag → o1.getVMagnitude c1 = o2.getVMagnitude c2) ∧
    (∀ (o : Nebula Region) (core : Option Core),
      o.mag.toFP.value ≠ .fin 0 → (o.getVMagnitude core).toFP.value ≠ .fin 0) := by
  refine ⟨fun _ _ => rfl, fun _ _ _ _ => rfl, ?_, fun _ _ h => h⟩
  intro o1 o2 c1 c2 h
  exact h

/-- A NaN stored in `mag` comes back as NaN with and without a core, also
when the blue and visual magnitudes differ. -/
theorem getVMagnitude_returns_mag_witness :
    exampleNaNMag.mag = ({ exampleNaNMag with magB := ⟨1⟩, magV := ⟨2⟩ } : Nebula Unit).mag ∧
    exampleNaNMag.getVMagnitude (none : Option Unit) =
      ({ exampleNaNMag with magB := ⟨1⟩, magV := ⟨2⟩ } : Nebula Unit).getVMagnitude (some ()) ∧
    (exampleNaNMag.getVMagnitude (none : Option Unit)).toFP = .nan :=
  ⟨rfl, (@getVMagnitude_returns_mag Unit Unit).2.2.1 _ _ none (some ()) rfl,
   by decide⟩

/-- C8: `translateName(t)` sets the localized name to `t` applied to the
English name, so that afterwards `getNameI18n()` is `t(getEnglishName())`, and
it leaves the English name and every other data member unchanged. -/
theorem translateName_frame (o : Nebula Region) (t : StelTranslator) :
    (o.translateName t).getNameI18n = t.qtranslate o.getEnglishName ∧
    (o.translateName t).getNameI18n = t.qtranslate (o.translateName t).getEnglishName ∧
    (o.translateName t).getEnglishName = o.getEnglishName ∧
    (o.translateName t).englishName = o.englishName ∧
    (o.translateName t).M_nb = o.M_nb ∧
    (o.translateName t).NGC_nb = o.NGC_nb ∧
    (o.translateName t).IC_nb = o.IC_nb ∧
    (o.translateName t).mag = o.mag ∧
    (o.translateName t).angularSize = o.angularSize ∧
    (o.translateName t).XYZ = o.XYZ ∧
    (o.translateName t).XYZ2 = o.XYZ2 ∧
    (o.translateName t).XY = o.XY ∧
    (o.translateName t).XY2 = o.XY2 ∧
    (o.translateName t).nType = o.nType ∧
    (o.translateName t).bNGCObject = o.bNGCObject ∧
    (o.translateName t).BminusV = o.BminusV ∧
    (o.translateName t).PGC_nb = o.PGC_nb ∧
    (o.translateName t).altDesig1 = o.altDesig1 ∧
    (o.translateName t).pointRegion = o.pointRegion ∧
    (o.translateName t).bDreyerObject = o.bDreyerObject ∧
    (o.translateName t).constellationAbbr = o.constellationAbbr ∧
    (o.translateName t).magB = o.magB ∧
    (o.translateName t).magV = o.magV ∧
    (o.translateName t).SBrightness = o.SBrightness ∧
    (o.translateName t).sizeX = o.sizeX ∧
    (o.translateName t).sizeY = o.sizeY ∧
    (o.translateName t).PAdeg = o.PAdeg ∧
    (o.translateName t).hubbleType = o.hubbleType ∧
    (o.translateName t).redshift = o.redshift ∧
    (o.translateName t).dist = o.dist ∧
    (o.translateName t).distz = o.distz := by
  simp [Nebula.translateName, Nebula.getNameI18n, Nebula.getEnglishName]

/-- C9: `setLabelColor(v)` makes the shared label colour `v` and leaves the
other static members and every object unchanged; `setCircleColor(v)` does the
same for the shared circle colour. -/
theorem setColor_frame (w : World Tex Region) (this : Nat) (v : Vec3f) :
    ((w.setLabelColor this v).statics.labelColor = v ∧
      (w.setLabelColor this v).statics.circleColor = w.statics.circleColor ∧
      (w.setLabelColor this v).statics.circleScale = w.statics.circleScale ∧
      (w.setLabelColor this v).statics.hintsBrightness = w.statics.hintsBrightness ∧
      (w.setLabelColor this v).statics.texCircle = w.statics.texCircle ∧
      (w.setLabelColor this v).statics.texOpenCluster = w.statics.texOpenCluster ∧
      (w.setLabelColor this v).statics.texGlobularCluster = w.statics.texGlobularCluster ∧
      (w.setLabelColor this v).statics.texPlanetNebula = w.statics.texPlanetNebula ∧
      (w.setLabelColor this v).objects = w.objects) ∧
    ((w.setCircleColor this v).statics.circleColor = v ∧
      (w.setCircleColor this v).statics.labelColor = w.statics.labelColor ∧
      (w.setCircleColor this v).statics.circleScale = w.statics.circleScale ∧
      (w.setCircleColor this v).statics.hintsBrightness = w.statics.hintsBrightness ∧
      (w.setCircleColor this v).statics.texCircle = w.statics.texCircle ∧
      (w.setCircleColor this v).statics.texOpenCluster = w.statics.texOpenCluster ∧
      (w.setCircleColor this v).statics.texGlobularCluster = w.statics.texGlobularCluster ∧
      (w.setCircleColor this v).statics.texPlanetNebula = w.statics.texPlanetNebula ∧
      (w.setCircleColor this v).objects = w.objects) := by
  simp [World.setLabelColor, World.setCircleColor]

end Claims

end Stellarium
